import Mathlib

/-! GinTest user controller.

A shallow embedding of `internal/controllers/userController.go` and of the
`UserRepository` interface of `internal/models/userRepository.go`.

* `strconv`     : the Go standard library routine `strconv.Atoi` the handlers
                  call on the `id`, `page` and `limit` parameters.
* `controllers` : the eight gin handlers.  A handler run is the list of
                  observable events it performs, in order: calls of the user
                  service and writes of an HTTP response.
* `services`    : the create-user rule of the user service over a repository.
-/

set_option autoImplicit false

/-! ## Go machine integers (64-bit platform) -/

namespace golang

/-- Width of the Go types `int` and `uint` (64-bit platform). -/
def intSize : Nat := 64

/-- Conversion to `uint64`: reduction modulo `2^64`. -/
def toUint64 (x : Nat) : Nat := x % 2 ^ 64

/-- Conversion to `int64` (and to `int`): two-complement wrap into `[-2^63, 2^63)`. -/
def toInt64 (x : Int) : Int := (x + 2 ^ 63) % 2 ^ 64 - 2 ^ 63

/-- The conversion `uint(x)` of an `int` value: reduction modulo `2^64`. -/
def uint (x : Int) : Nat := (x % 2 ^ intSize).toNat

/-- The bytes of a Go string (UTF-8). -/
def bytes (s : String) : List Nat :=
  (s.toList.flatMap String.utf8EncodeChar).map UInt8.toNat

/-- The verb `%d` of `fmt.Sprintf` on an `int`: signed decimal. -/
def fmtD (n : Int) : String := toString n

end golang

/-! ## strconv.Atoi -/

namespace strconv

open golang

/-- The two error causes a `*strconv.NumError` can carry on these paths. -/
inductive NumError where
  | ErrSyntax
  | ErrRange
  deriving DecidableEq, Repr

/-- Constant `maxUint64`. -/
def maxUint64 : Nat := 2 ^ 64 - 1

/-- The function `lower(c)` of strconv: `c | ('x' - 'X')`. -/
def lower (c : Nat) : Nat := c ||| 32

/-- The digit loop of `ParseUint(s, 10, 0)` over the bytes still to read, with
accumulator `n`; `cutoff = maxUint64/10 + 1`, `maxVal = 1<<64 - 1`. The loop
returns at the first offending byte: a non-digit gives `ErrSyntax`, an overflow
gives `ErrRange` with `maxVal`, without reading the rest. -/
def ParseUintLoop : List Nat → Nat → Nat × Option NumError
  | [], n => (n, none)
  | c :: cs, n =>
    let d? : Option Nat :=
      if 48 ≤ c ∧ c ≤ 57 then some (c - 48)
      else if 97 ≤ lower c ∧ lower c ≤ 122 then some (lower c - 97 + 10)
      else none
    match d? with
    | none => (0, some .ErrSyntax)
    | some d =>
      if d ≥ 10 then (0, some .ErrSyntax)
      else if n ≥ maxUint64 / 10 + 1 then (maxUint64, some .ErrRange)
      else
        let n10 := toUint64 (n * 10)
        let n1 := toUint64 (n10 + d)
        if n1 < n10 ∨ n1 > maxUint64 then (maxUint64, some .ErrRange)
        else ParseUintLoop cs n1

/-- Go `strconv.ParseUint(s, 10, 0)` on the bytes of `s`. -/
def ParseUint (s : List Nat) : Nat × Option NumError :=
  if s = [] then (0, some .ErrSyntax) else ParseUintLoop s 0

/-- Go `strconv.ParseInt(s, 10, 0)` on the bytes of `s`. -/
def ParseInt (s : List Nat) : Int × Option NumError :=
  match s with
  | [] => (0, some .ErrSyntax)
  | c0 :: rest =>
    let neg := c0 = 45
    let s1 := if c0 = 43 then rest else if c0 = 45 then rest else s
    let r := ParseUint s1
    let un := r.1
    if r.2 = some .ErrSyntax then (0, some .ErrSyntax)
    else
      let cutoff : Nat := 2 ^ (intSize - 1)
      if ¬ neg ∧ un ≥ cutoff then (((cutoff - 1 : Nat) : Int), some .ErrRange)
      else if neg ∧ un > cutoff then (-(cutoff : Int), some .ErrRange)
      else
        let n := toInt64 un
        (if neg then toInt64 (-n) else n, none)

/-- The loop of the fast path of `Atoi`: `ch -= 0x30` in byte arithmetic, a
result above 9 is a syntax error, otherwise `n = n*10 + int(ch)`. -/
def AtoiFastLoop : List Nat → Int → Int × Option NumError
  | [], n => (n, none)
  | ch :: rest, n =>
    let ch := (ch + 256 - 48) % 256
    if ch > 9 then (0, some .ErrSyntax)
    else AtoiFastLoop rest (toInt64 (n * 10 + (ch : Int)))

/-- Go `strconv.Atoi` on the bytes of a string: the returned `int` and the
error cause (`none` is a nil error). -/
def AtoiBytes (s : List Nat) : Int × Option NumError :=
  let sLen := s.length
  if 0 < sLen ∧ sLen < 19 then
    -- fast path for small integers that fit the int type
    match s with
    | [] => (0, some .ErrSyntax)
    | c0 :: rest =>
      let signed := c0 = 45 ∨ c0 = 43
      let s1 := if signed then rest else s
      if signed ∧ s1.length < 1 then (0, some .ErrSyntax)
      else
        let r := AtoiFastLoop s1 0
        match r.2 with
        | some e => (0, some e)
        | none => (if c0 = 45 then toInt64 (-r.1) else r.1, none)
  else
    -- slow path for invalid, big, or underscored integers
    let r := ParseInt s
    (toInt64 r.1, r.2)

/-- Go `strconv.Atoi(s)`. -/
def Atoi (s : String) : Int × Option NumError := AtoiBytes (bytes s)

/-- A decimal digit byte, `0x30` to `0x39`. -/
def isDigit (c : Nat) : Bool := decide (48 ≤ c ∧ c ≤ 57)

/-- Being syntactically a decimal integer, in the words of the description: an
optional sign followed by one or more decimal digits. -/
def isNumeral : List Nat → Bool
  | [] => false
  | c :: rest =>
    if c = 43 ∨ c = 45 then !rest.isEmpty && rest.all isDigit
    else (c :: rest).all isDigit

end strconv

/-! ## The controller -/

namespace controllers

open golang strconv

/-- The types the controller takes from packages whose declarations are not in
the source tree (`models.User`, `dtos.UserDto`, `dtos.PasswordUpdateDto`,
`validator.ValidationErrors`) and the Go `error` values of the service. -/
structure Types where
  User : Type
  UserDto : Type
  PasswordUpdateDto : Type
  ValidationErrors : Type
  Error : Type

/-- Constant `http.StatusOK`. -/
def StatusOK : Nat := 200
/-- Constant `http.StatusBadRequest`. -/
def StatusBadRequest : Nat := 400
/-- Constant `http.StatusInternalServerError`. -/
def StatusInternalServerError : Nat := 500

/-- What a handler reads of `*gin.Context`: path parameters, query parameters
(both give the empty string for an absent key) and the request body. -/
structure Context where
  Param : String → String
  Query : String → String
  Body : String

/-- The fields of `dtos.UserListDto` the controller uses; both are `int`, as
the assignments from the results of `Atoi` require. -/
structure UserListDto where
  Page : Int
  Limit : Int

/-- The methods of `*services.UserService` the controller calls, each giving
the full tuple of return values; the last component is the `error`, `none`
for nil. -/
structure UserService (T : Types) where
  GetUserList : Int → Int → List T.User × Int × Option T.Error
  GetUserById : Nat → T.User × Option T.Error
  CreateUser : T.UserDto → T.User × String × Option T.Error
  SuspendUserById : Nat → Option T.Error
  DeactivateUserById : Nat → Option T.Error
  ActivateUserById : Nat → Option T.Error
  UpdateUser : Nat → T.UserDto → Option T.Error
  UpdatePassword : Nat → T.PasswordUpdateDto → Option T.Error

/-- The collaborators of the controller: the package variables `userService`,
`validate`, `customValidate`, and the library calls whose results the handlers
branch on. `ShouldBindJSON` gives `none` when binding returns an error;
`validateStruct` and `customValidateStruct` give `none` when `Struct` returns
nil and the `validator.ValidationErrors` otherwise. -/
structure Env (T : Types) where
  userService : UserService T
  NewUserListDto : UserListDto
  ShouldBindJSONUserDto : String → Option T.UserDto
  ShouldBindJSONPasswordUpdateDto : String → Option T.PasswordUpdateDto
  validateStruct : T.UserDto → Option T.ValidationErrors
  customValidateStruct : T.PasswordUpdateDto → Option T.ValidationErrors
  ValidationErrorsError : T.ValidationErrors → String
  ErrorString : T.Error → String
  UserID : T.User → Nat

/-- The translator handed to `ValidationErrors.Translate`. -/
inductive Translator where
  | nil
  | customValidateTranslator
  deriving DecidableEq, Repr

/-- The values the handlers put in a `gin.H` map. -/
inductive Value (T : Types) where
  | str (s : String)
  | id (n : Nat)
  | total (n : Int)
  | users (us : List T.User)
  | translate (ut : Translator) (ve : T.ValidationErrors)

/-- The objects the handlers hand to `c.JSON`: a `gin.H` map, given by its
key-value pairs, or the user returned by the service. -/
inductive Body (T : Types) where
  | H (fields : List (String × Value T))
  | user (u : T.User)

/-- One invocation of a method of the user service, with its arguments. -/
inductive Call (T : Types) where
  | GetUserList (page limit : Int)
  | GetUserById (id : Nat)
  | CreateUser (dto : T.UserDto)
  | SuspendUserById (id : Nat)
  | DeactivateUserById (id : Nat)
  | ActivateUserById (id : Nat)
  | UpdateUser (id : Nat) (dto : T.UserDto)
  | UpdatePassword (id : Nat) (dto : T.PasswordUpdateDto)

/-- The observable steps of a handler run. `RespondWithError` is the call
`utils.RespondWithError(c, code, message)`; `JSON` is `c.JSON(code, obj)`. -/
inductive Event (T : Types) where
  | service (call : Call T)
  | RespondWithError (code : Nat) (message : String)
  | JSON (code : Nat) (obj : Body T)

variable {T : Types}

/-- Handler `GetUserList`. -/
def GetUserList (env : Env T) (c : Context) : List (Event T) :=
  let userListDto := env.NewUserListDto
  let userListDto : UserListDto :=
    if c.Query "page" ≠ "" then
      if (Atoi (c.Query "page")).2 = none then
        { userListDto with Page := (Atoi (c.Query "page")).1 }
      else userListDto
    else userListDto
  let userListDto : UserListDto :=
    if c.Query "limit" ≠ "" then
      if (Atoi (c.Query "limit")).2 = none then
        { userListDto with Limit := (Atoi (c.Query "limit")).1 }
      else userListDto
    else userListDto
  .service (.GetUserList userListDto.Page userListDto.Limit) ::
    match env.userService.GetUserList userListDto.Page userListDto.Limit with
    | (_, _, some err) =>
      [.RespondWithError StatusInternalServerError (env.ErrorString err)]
    | (users, total, none) =>
      [.JSON StatusOK (.H [("total users", .total total), ("users", .users users)])]

/-- Handler `GetUserById`. -/
def GetUserById (env : Env T) (c : Context) : List (Event T) :=
  let id := c.Param "id"
  let (userid, err) := Atoi id
  if err ≠ none ∨ userid < 1 then
    [.RespondWithError StatusBadRequest "Invalid user id parameter"]
  else
    .service (.GetUserById (uint userid)) ::
      match env.userService.GetUserById (uint userid) with
      | (_, some err) =>
        [.RespondWithError StatusInternalServerError (env.ErrorString err)]
      | (user, none) => [.JSON StatusOK (.user user)]

/-- Handler `CreateUser`. -/
def CreateUser (env : Env T) (c : Context) : List (Event T) :=
  match env.ShouldBindJSONUserDto c.Body with
  | none => [.RespondWithError StatusBadRequest "Invalid request payload"]
  | some userDto =>
    match env.validateStruct userDto with
    | some validationErrors =>
      [.JSON StatusBadRequest (.H [("error", .translate .nil validationErrors)])]
    | none =>
      .service (.CreateUser userDto) ::
        match env.userService.CreateUser userDto with
        | (_, _, some err) =>
          [.RespondWithError StatusInternalServerError (env.ErrorString err)]
        | (createdUser, generatedPassword, none) =>
          [.JSON StatusOK (.H [("id", .id (env.UserID createdUser)),
                               ("password", .str generatedPassword)])]

/-- Handler `SuspendUserById`. -/
def SuspendUserById (env : Env T) (c : Context) : List (Event T) :=
  let id := c.Param "id"
  let (userid, err) := Atoi id
  if err ≠ none ∨ userid < 1 then
    [.RespondWithError StatusBadRequest "Invalid user id parameter"]
  else
    .service (.SuspendUserById (uint userid)) ::
      match env.userService.SuspendUserById (uint userid) with
      | some err => [.RespondWithError StatusInternalServerError (env.ErrorString err)]
      | none =>
        [.JSON StatusOK (.H [("message",
          .str ("User with ID: " ++ fmtD userid ++ " successfully suspended"))])]

/-- Handler `DeactivateUserById`. -/
def DeactivateUserById (env : Env T) (c : Context) : List (Event T) :=
  let id := c.Param "id"
  let (userid, err) := Atoi id
  if err ≠ none ∨ userid < 1 then
    [.RespondWithError StatusBadRequest "Invalid user id parameter"]
  else
    .service (.DeactivateUserById (uint userid)) ::
      match env.userService.DeactivateUserById (uint userid) with
      | some err => [.RespondWithError StatusInternalServerError (env.ErrorString err)]
      | none =>
        [.JSON StatusOK (.H [("message",
          .str ("User with ID: " ++ fmtD userid ++ " successfully deactivated"))])]

/-- Handler `ActivateUserById`. -/
def ActivateUserById (env : Env T) (c : Context) : List (Event T) :=
  let id := c.Param "id"
  let (userid, err) := Atoi id
  if err ≠ none ∨ userid < 1 then
    [.RespondWithError StatusBadRequest "Invalid user id parameter"]
  else
    .service (.ActivateUserById (uint userid)) ::
      match env.userService.ActivateUserById (uint userid) with
      | some err => [.RespondWithError StatusInternalServerError (env.ErrorString err)]
      | none =>
        [.JSON StatusOK (.H [("message",
          .str ("User with ID: " ++ fmtD userid ++ " successfully reactivated"))])]

/-- Handler `UpdateUser`. The error of `Atoi` is assigned to `err` and never
read: `err` is next assigned by the service call. -/
def UpdateUser (env : Env T) (c : Context) : List (Event T) :=
  let id := c.Param "id"
  let (userid, _) := Atoi id
  match env.ShouldBindJSONUserDto c.Body with
  | none => [.RespondWithError StatusBadRequest "Invalid request payload"]
  | some userDto =>
    match env.validateStruct userDto with
    | some validationErrors =>
      [.RespondWithError StatusBadRequest (env.ValidationErrorsError validationErrors)]
    | none =>
      .service (.UpdateUser (uint userid) userDto) ::
        match env.userService.UpdateUser (uint userid) userDto with
        | some err => [.RespondWithError StatusInternalServerError (env.ErrorString err)]
        | none =>
          [.JSON StatusOK (.H [("message",
            .str ("User with ID: " ++ fmtD userid ++
              " successfully updated with the given data"))])]

/-- Handler `UpdatePassword`. -/
def UpdatePassword (env : Env T) (c : Context) : List (Event T) :=
  let id := c.Param "id"
  let (userid, err) := Atoi id
  if err ≠ none ∨ userid < 1 then
    [.RespondWithError StatusBadRequest "Invalid user id parameter"]
  else
    match env.ShouldBindJSONPasswordUpdateDto c.Body with
    | none => [.RespondWithError StatusBadRequest "Invalid request payload"]
    | some passwordUpdateDto =>
      match env.customValidateStruct passwordUpdateDto with
      | some validationErrors =>
        [.JSON StatusBadRequest
          (.H [("errors", .translate .customValidateTranslator validationErrors)])]
      | none =>
        .service (.UpdatePassword (uint userid) passwordUpdateDto) ::
          match env.userService.UpdatePassword (uint userid) passwordUpdateDto with
          | some err =>
            [.RespondWithError StatusInternalServerError (env.ErrorString err)]
          | none =>
            [.JSON StatusOK (.H [("message",
              .str ("Password of user with Id : " ++ fmtD userid ++
                " successfully updated "))])]

/-! ### Reading a run -/

/-- The eight handlers of the controller. -/
inductive Handler where
  | GetUserList
  | GetUserById
  | CreateUser
  | SuspendUserById
  | DeactivateUserById
  | ActivateUserById
  | UpdateUser
  | UpdatePassword
  deriving DecidableEq, Repr

/-- The run of a handler on a request. -/
def Handler.run (h : Handler) (env : Env T) (c : Context) : List (Event T) :=
  match h with
  | .GetUserList => controllers.GetUserList env c
  | .GetUserById => controllers.GetUserById env c
  | .CreateUser => controllers.CreateUser env c
  | .SuspendUserById => controllers.SuspendUserById env c
  | .DeactivateUserById => controllers.DeactivateUserById env c
  | .ActivateUserById => controllers.ActivateUserById env c
  | .UpdateUser => controllers.UpdateUser env c
  | .UpdatePassword => controllers.UpdatePassword env c

/-- The service invocations of a run, in order. -/
def calls : List (Event T) → List (Call T)
  | [] => []
  | .service call :: es => call :: calls es
  | _ :: es => calls es

/-- The response writes of a run, in order (the run without its service
invocations). -/
def responses : List (Event T) → List (Event T)
  | [] => []
  | .service _ :: es => responses es
  | e :: es => e :: responses es

/-- Modelled from the spec: `utils.RespondWithError` (package internal/utils,
not in the source tree) maps a failure to one HTTP response with the status
code it is handed, carrying the message it is handed. With that, the HTTP
status of a response write. -/
def Event.status : Event T → Option Nat
  | .service _ => none
  | .RespondWithError code _ => some code
  | .JSON code _ => some code

/-- The `error` the user service returns for an invocation. -/
def Env.errOf (env : Env T) : Call T → Option T.Error
  | .GetUserList page limit => (env.userService.GetUserList page limit).2.2
  | .GetUserById id => (env.userService.GetUserById id).2
  | .CreateUser dto => (env.userService.CreateUser dto).2.2
  | .SuspendUserById id => env.userService.SuspendUserById id
  | .DeactivateUserById id => env.userService.DeactivateUserById id
  | .ActivateUserById id => env.userService.ActivateUserById id
  | .UpdateUser id dto => env.userService.UpdateUser id dto
  | .UpdatePassword id dto => env.userService.UpdatePassword id dto

/-- The value handed to the service for a pagination parameter, in the words
of the description: the integer value of the query parameter when it is
non-empty and parses, the default otherwise. -/
def pageOrDefault (raw : String) (dflt : Int) : Int :=
  if raw ≠ "" ∧ (Atoi raw).2 = none then (Atoi raw).1 else dflt

/-- The four forms a run can take: a 400 written by RespondWithError, a 400
written by `c.JSON`, one service invocation that returned an error followed
by a 500 carrying its message, or one service invocation that returned no
error followed by a 200. -/
def Shape (env : Env T) (run : List (Event T)) : Prop :=
  (∃ msg, run = [.RespondWithError 400 msg]) ∨
  (∃ obj, run = [.JSON 400 obj]) ∨
  (∃ call e, env.errOf call = some e ∧
    run = [.service call, .RespondWithError 500 (env.ErrorString e)]) ∨
  (∃ call obj, env.errOf call = none ∧ run = [.service call, .JSON 200 obj])

/-! ### A concrete instance -/

/-- Concrete carrier types: users are identifiers, payloads are the bound
body text, validation errors and service errors are their messages. -/
@[reducible] def T0 : Types where
  User := Nat
  UserDto := String
  PasswordUpdateDto := String
  ValidationErrors := String
  Error := String

/-- The error of the concrete service: it fails exactly on identifier 13. -/
def failsOn13 (id : Nat) : Option String :=
  if id = 13 then some "record not found" else none

/-- The error of the concrete service on a payload: it fails exactly on `dup`. -/
def failsOnDup (dto : String) : Option String :=
  if dto = "dup" then some "email exists" else none

/-- The concrete user list. -/
def users0 : List Nat := [1, 2]

/-- A service over `T0` that fails exactly on the identifier 13 and on the
payload `dup`. -/
def svc0 : UserService T0 where
  GetUserList := fun page limit => (users0, page + limit, none)
  GetUserById := fun id => (id, failsOn13 id)
  CreateUser := fun dto => (7, "s3cret", failsOnDup dto)
  SuspendUserById := failsOn13
  DeactivateUserById := failsOn13
  ActivateUserById := failsOn13
  UpdateUser := fun id _ => failsOn13 id
  UpdatePassword := fun id _ => failsOn13 id

/-- An environment over `T0`: binding fails on the empty body, validation
fails on the payload `bad`. -/
def env0 : Env T0 where
  userService := svc0
  NewUserListDto := { Page := 1, Limit := 10 }
  ShouldBindJSONUserDto := fun b => if b = "" then none else some b
  ShouldBindJSONPasswordUpdateDto := fun b => if b = "" then none else some b
  validateStruct := fun (d : String) =>
    if d = "bad" then some "Email is required" else none
  customValidateStruct := fun (d : String) =>
    if d = "bad" then some "too short" else none
  ValidationErrorsError := fun (ve : String) => ve
  ErrorString := fun (e : String) => e
  UserID := fun (u : Nat) => u

/-- A request with the given `id` path parameter and body, no query. -/
def reqId (id body : String) : Context where
  Param := fun k => if k = "id" then id else ""
  Query := fun _ => ""
  Body := body

/-- A request with the given `page` and `limit` query parameters. -/
def reqList (page limit : String) : Context where
  Param := fun _ => ""
  Query := fun k => if k = "page" then page else if k = "limit" then limit else ""
  Body := ""

end controllers

/-! ## The create-user rule of the user service -/

namespace services

/-- Modelled from the spec: the status of a user, which the source tree does
not declare; one of Active, Suspended, Deactivated. -/
inductive Status where
  | Active
  | Suspended
  | Deactivated
  deriving DecidableEq, Repr

/-- Modelled from the spec: the record `models.User`, whose declaration is not
in the source tree: identifier, email, derived credential and status. The
profile fields play no part in the create-user rule and are left out. -/
structure User where
  ID : Nat
  Email : String
  Password : String
  Status : Status
  deriving DecidableEq, Repr

/-- Modelled from the spec: the payload `dtos.UserDto` of a create-user
request, whose declaration is not in the source tree; only the email takes
part in the rule. -/
structure UserDto where
  Email : String
  deriving DecidableEq, Repr

/-- Modelled from the spec: the contract of the two methods of the interface
`UserRepository` the create-user rule uses, over an explicit storage state
(the interface is in the source tree, no implementation is).
`CheckUserByEmail` reports a stored user holding the email when there is one
and none otherwise; `CreateUser` either fails (`none`, storage unchanged) or
stores one more user, which carries the email it was handed. -/
structure UserRepository where
  Store : Type
  users : Store → List User
  CheckUserByEmail : Store → String → Option User
  CreateUser : Store → User → Option (Store × User)
  check_some : ∀ s e u, CheckUserByEmail s e = some u → u ∈ users s ∧ u.Email = e
  check_none : ∀ s e, CheckUserByEmail s e = none → ∀ u ∈ users s, u.Email ≠ e
  create_some : ∀ s u s1 u1, CreateUser s u = some (s1, u1) →
    users s1 = users s ++ [u1] ∧ u1.Email = u.Email

/-- Modelled from the spec: the credential-generation utility, an external
collaborator: the generated plaintext password for a request and the derived
credential that is stored in its place. -/
structure Credentials where
  generate : UserDto → String
  derive : String → String

/-- Modelled from the spec: the method `UserService.CreateUser` of
`internal/services`, which is not in the source tree: the uniqueness check
through `CheckUserByEmail`, the password generation, then the repository
`CreateUser`. The result is the storage afterwards and, on success, the
created user with the generated password (`none` is a non-nil error). -/
def CreateUser (repo : UserRepository) (cred : Credentials) (s : repo.Store)
    (dto : UserDto) : repo.Store × Option (User × String) :=
  match repo.CheckUserByEmail s dto.Email with
  | some _ => (s, none)
  | none =>
    let generatedPassword := cred.generate dto
    let user : User :=
      { ID := 0, Email := dto.Email, Password := cred.derive generatedPassword,
        Status := .Active }
    match repo.CreateUser s user with
    | none => (s, none)
    | some (s1, createdUser) => (s1, some (createdUser, generatedPassword))

/-- The storage reached from `s` by a sequence of create-user requests. -/
def createAll (repo : UserRepository) (cred : Credentials) (s : repo.Store) :
    List UserDto → repo.Store
  | [] => s
  | dto :: rest => createAll repo cred (CreateUser repo cred s dto).1 rest

/-- An in-memory repository: the storage is the list of users, a created user
gets the next identifier. -/
def memRepo : UserRepository where
  Store := List User
  users := fun s => s
  CheckUserByEmail := fun s e => s.find? (fun u => decide (u.Email = e))
  CreateUser := fun s u => some (s ++ [{ u with ID := s.length + 1 }], { u with ID := s.length + 1 })
  check_some := by
    intro s e u h
    have h1 := List.find?_some h
    exact ⟨List.mem_of_find?_eq_some h, by simpa using h1⟩
  check_none := by
    intro s e h u hu
    have := List.find?_eq_none.mp h u hu
    simpa using this
  create_some := by
    intro s u s1 u1 h
    simp only [Option.some.injEq, Prod.mk.injEq] at h
    obtain ⟨h1, h2⟩ := h
    subst h1 h2
    exact ⟨rfl, rfl⟩

/-- A concrete credential utility. -/
def cred0 : Credentials where
  generate := fun _ => "pw"
  derive := fun p => "#" ++ p

end services

/-! ## Facts about `strconv.Atoi` -/

namespace strconv

open golang

theorem toInt64_range (x : Int) : -2 ^ 63 ≤ toInt64 x ∧ toInt64 x < 2 ^ 63 := by
  unfold toInt64
  omega

theorem toInt64_zero : toInt64 0 = 0 := by
  unfold toInt64
  omega

/-- The fast loop keeps its accumulator in the range of `int`. -/
theorem AtoiFastLoop_range (l : List Nat) (n : Int)
    (hn : -2 ^ 63 ≤ n ∧ n < 2 ^ 63) :
    -2 ^ 63 ≤ (AtoiFastLoop l n).1 ∧ (AtoiFastLoop l n).1 < 2 ^ 63 := by
  induction l generalizing n with
  | nil => simpa [AtoiFastLoop] using hn
  | cons ch rest ih =>
    unfold AtoiFastLoop
    simp only
    split
    · constructor <;> simp
    · exact ih _ (toInt64_range _)

/-- The value `Atoi` returns is an `int`: it lies in `[-2^63, 2^63)`. -/
theorem AtoiBytes_range (s : List Nat) :
    -2 ^ 63 ≤ (AtoiBytes s).1 ∧ (AtoiBytes s).1 < 2 ^ 63 := by
  unfold AtoiBytes
  simp only
  split_ifs with h1
  · cases s with
    | nil => norm_num
    | cons c0 rest =>
      simp only
      have hl := AtoiFastLoop_range (if c0 = 45 ∨ c0 = 43 then rest else c0 :: rest) 0
        (by norm_num)
      generalize AtoiFastLoop (if c0 = 45 ∨ c0 = 43 then rest else c0 :: rest) 0 = r at hl
      obtain ⟨v, e⟩ := r
      cases e <;> simp only <;> split_ifs <;>
        first
          | exact toInt64_range _
          | exact hl
          | norm_num
  · exact toInt64_range _

theorem Atoi_range (s : String) : -2 ^ 63 ≤ (Atoi s).1 ∧ (Atoi s).1 < 2 ^ 63 :=
  AtoiBytes_range _

/-- A syntax error of `ParseInt` comes with the value 0. -/
theorem ParseInt_ErrSyntax (s : List Nat) (h : (ParseInt s).2 = some .ErrSyntax) :
    (ParseInt s).1 = 0 := by
  unfold ParseInt at h ⊢
  cases s with
  | nil => rfl
  | cons c0 rest =>
    simp only at h ⊢
    generalize ParseUint (if c0 = 43 then rest else if c0 = 45 then rest else c0 :: rest) = r
      at h
    split_ifs at h ⊢ <;> first | rfl | simp at h

/-- A syntax error of `Atoi` comes with the value 0. -/
theorem AtoiBytes_ErrSyntax (s : List Nat) (h : (AtoiBytes s).2 = some .ErrSyntax) :
    (AtoiBytes s).1 = 0 := by
  unfold AtoiBytes at h ⊢
  simp only at h ⊢
  split_ifs at h ⊢ with h1
  · cases s with
    | nil => rfl
    | cons c0 rest =>
      simp only at h ⊢
      generalize AtoiFastLoop (if c0 = 45 ∨ c0 = 43 then rest else c0 :: rest) 0 = r at h
      obtain ⟨v, e⟩ := r
      cases e <;> simp only at h ⊢ <;> split_ifs at h ⊢ <;> rfl
  · simp only at h ⊢
    rw [ParseInt_ErrSyntax s h]
    exact toInt64_zero

theorem Atoi_ErrSyntax (s : String) (h : (Atoi s).2 = some .ErrSyntax) :
    (Atoi s).1 = 0 :=
  AtoiBytes_ErrSyntax _ h

/-- Every byte of a string is below 256. -/
theorem bytes_lt (s : String) : ∀ b ∈ bytes s, b < 256 := by
  intro b hb
  unfold bytes at hb
  obtain ⟨x, _, rfl⟩ := List.mem_map.mp hb
  exact x.val.isLt

/-- The fast loop fails exactly when a byte is not a decimal digit, and then
with a syntax error. -/
theorem AtoiFastLoop_err (l : List Nat) (n : Int) (hb : ∀ b ∈ l, b < 256) :
    (AtoiFastLoop l n).2 = if l.all isDigit then none else some .ErrSyntax := by
  induction l generalizing n with
  | nil => rfl
  | cons ch rest ih =>
    have hch : ch < 256 := hb ch (List.mem_cons_self _ _)
    have hrest : ∀ b ∈ rest, b < 256 := fun b h => hb b (List.mem_cons_of_mem _ h)
    unfold AtoiFastLoop
    simp only [List.all_cons]
    by_cases hd : 48 ≤ ch ∧ ch ≤ 57
    · have h1 : ¬ ((ch + 256 - 48) % 256 > 9) := by omega
      have h2 : isDigit ch = true := by simp [isDigit, hd]
      rw [if_neg h1, ih _ hrest]
      simp [h2]
    · have h1 : (ch + 256 - 48) % 256 > 9 := by omega
      have h2 : isDigit ch = false := by simp [isDigit]; omega
      rw [if_pos h1]
      simp [h2]

/-- On a string of fewer than 19 bytes that is not syntactically a decimal
integer, `Atoi` returns 0 with a syntax error. -/
theorem AtoiBytes_short_not_numeral (s : List Nat) (hb : ∀ b ∈ s, b < 256)
    (hlen : s.length < 19) (hnum : isNumeral s = false) :
    AtoiBytes s = (0, some .ErrSyntax) := by
  cases s with
  | nil => rfl
  | cons c0 rest =>
    have hrest : ∀ b ∈ rest, b < 256 := fun b h => hb b (List.mem_cons_of_mem _ h)
    have hpos : 0 < (c0 :: rest).length ∧ (c0 :: rest).length < 19 :=
      ⟨by simp, hlen⟩
    unfold AtoiBytes
    rw [if_pos hpos]
    simp only
    unfold isNumeral at hnum
    simp only at hnum
    by_cases hs : c0 = 45 ∨ c0 = 43
    · have hs2 : c0 = 43 ∨ c0 = 45 := hs.symm
      rw [if_pos hs2] at hnum
      simp only [if_pos hs]
      cases rest with
      | nil =>
        have hlt : (c0 = 45 ∨ c0 = 43) ∧ ([] : List Nat).length < 1 := ⟨hs, by simp⟩
        rw [if_pos hlt]
      | cons c1 rest1 =>
        have hne : ¬ ((c0 = 45 ∨ c0 = 43) ∧ (c1 :: rest1).length < 1) := by simp
        rw [if_neg hne]
        have hall : (c1 :: rest1).all isDigit = false := by simpa using hnum
        have he := AtoiFastLoop_err (c1 :: rest1) 0 hrest
        rw [hall] at he
        simp only [Bool.false_eq_true, if_false] at he
        rw [he]
    · have hs2 : ¬ (c0 = 43 ∨ c0 = 45) := fun h => hs h.symm
      rw [if_neg hs2] at hnum
      simp only [if_neg hs]
      have hne : ¬ ((c0 = 45 ∨ c0 = 43) ∧ (c0 :: rest).length < 1) := by simp
      rw [if_neg hne]
      have he := AtoiFastLoop_err (c0 :: rest) 0 hb
      rw [hnum] at he
      simp only [Bool.false_eq_true, if_false] at he
      rw [he]

theorem Atoi_short_not_numeral (s : String) (hlen : (bytes s).length < 19)
    (hnum : isNumeral (bytes s) = false) : Atoi s = (0, some .ErrSyntax) :=
  AtoiBytes_short_not_numeral _ (bytes_lt s) hlen hnum

/-- A range error of the digit loop of `ParseUint` comes with `maxUint64`. -/
theorem ParseUintLoop_ErrRange (l : List Nat) (n : Nat)
    (h : (ParseUintLoop l n).2 = some .ErrRange) :
    (ParseUintLoop l n).1 = maxUint64 := by
  induction l generalizing n with
  | nil => simp [ParseUintLoop] at h
  | cons c cs ih =>
    unfold ParseUintLoop at h ⊢
    simp only at h ⊢
    generalize (if 48 ≤ c ∧ c ≤ 57 then some (c - 48)
      else if 97 ≤ lower c ∧ lower c ≤ 122 then some (lower c - 97 + 10)
      else none : Option Nat) = d? at h ⊢
    cases d? with
    | none => simp at h
    | some d =>
      simp only at h ⊢
      split_ifs at h ⊢
      · simp at h
      · rfl
      · rfl
      · exact ih _ h

/-- The digit loop of `ParseUint` fails on a byte string that has a byte
other than a decimal digit. -/
theorem ParseUintLoop_not_digits (l : List Nat) (n : Nat)
    (h : l.all isDigit = false) : (ParseUintLoop l n).2 ≠ none := by
  induction l generalizing n with
  | nil => simp at h
  | cons c cs ih =>
    unfold ParseUintLoop
    simp only
    by_cases hd : 48 ≤ c ∧ c ≤ 57
    · have hc : isDigit c = true := by simp [isDigit, hd]
      have hcs : cs.all isDigit = false := by
        rw [List.all_cons, hc] at h
        simpa using h
      rw [if_pos hd]
      simp only
      split_ifs
      · simp
      · simp
      · simp
      · exact ih _ hcs
    · rw [if_neg hd]
      by_cases hl : 97 ≤ lower c ∧ lower c ≤ 122
      · rw [if_pos hl]
        simp only
        rw [if_pos (by omega)]
        simp
      · rw [if_neg hl]
        simp

theorem ParseUint_ErrRange (s : List Nat) (h : (ParseUint s).2 = some .ErrRange) :
    (ParseUint s).1 = maxUint64 := by
  unfold ParseUint at h ⊢
  split_ifs at h ⊢
  · simp at h
  · exact ParseUintLoop_ErrRange _ _ h

theorem ParseUint_not_digits (s : List Nat) (h : s = [] ∨ s.all isDigit = false) :
    (ParseUint s).2 ≠ none := by
  unfold ParseUint
  split_ifs with h0
  · simp
  · rcases h with h | h
    · exact absurd h h0
    · exact ParseUintLoop_not_digits _ _ h

/-- On a byte string that is not syntactically a decimal integer `ParseInt`
fails: with a syntax error and the value 0, or with a range error and one of
the two bounds of `int`. -/
theorem ParseInt_not_numeral (s : List Nat) (hnum : isNumeral s = false) :
    ((ParseInt s).2 = some .ErrSyntax ∧ (ParseInt s).1 = 0) ∨
    ((ParseInt s).2 = some .ErrRange ∧
      ((ParseInt s).1 = 2 ^ 63 - 1 ∨ (ParseInt s).1 = -2 ^ 63)) := by
  cases s with
  | nil => exact Or.inl ⟨rfl, rfl⟩
  | cons c0 rest =>
    have hs1 : (if c0 = 43 then rest else if c0 = 45 then rest else c0 :: rest) = [] ∨
        (if c0 = 43 then rest else if c0 = 45 then rest else c0 :: rest).all isDigit
          = false := by
      unfold isNumeral at hnum
      simp only at hnum
      by_cases h43 : c0 = 43
      · rw [if_pos (Or.inl h43)] at hnum
        rw [if_pos h43]
        cases rest with
        | nil => exact Or.inl rfl
        | cons c1 r1 => exact Or.inr (by simpa using hnum)
      · by_cases h45 : c0 = 45
        · rw [if_pos (Or.inr h45)] at hnum
          rw [if_neg h43, if_pos h45]
          cases rest with
          | nil => exact Or.inl rfl
          | cons c1 r1 => exact Or.inr (by simpa using hnum)
        · rw [if_neg (by tauto)] at hnum
          rw [if_neg h43, if_neg h45]
          exact Or.inr hnum
    have herr := ParseUint_not_digits _ hs1
    have hmax := ParseUint_ErrRange
      (if c0 = 43 then rest else if c0 = 45 then rest else c0 :: rest)
    unfold ParseInt
    simp only
    generalize ParseUint (if c0 = 43 then rest else if c0 = 45 then rest else c0 :: rest)
      = r at herr hmax
    obtain ⟨un, e⟩ := r
    cases e with
    | none => exact absurd rfl herr
    | some e =>
      cases e with
      | ErrSyntax => exact Or.inl ⟨by simp, by simp⟩
      | ErrRange =>
        have hun : un = maxUint64 := hmax rfl
        subst hun
        right
        by_cases h45 : c0 = 45
        · simp [h45, intSize, maxUint64]
        · simp [h45, intSize, maxUint64]

/-- On a byte string that is not syntactically a decimal integer `Atoi`
fails: with 0 and a syntax error, or, only on 19 bytes or more, with a bound
of `int` and a range error. -/
theorem AtoiBytes_not_numeral (s : List Nat) (hb : ∀ b ∈ s, b < 256)
    (hnum : isNumeral s = false) :
    AtoiBytes s = (0, some .ErrSyntax) ∨
    (19 ≤ s.length ∧
      (AtoiBytes s = (2 ^ 63 - 1, some .ErrRange) ∨
       AtoiBytes s = (-2 ^ 63, some .ErrRange))) := by
  by_cases hlen : s.length < 19
  · exact Or.inl (AtoiBytes_short_not_numeral s hb hlen hnum)
  · have hslow : ¬ (0 < s.length ∧ s.length < 19) := fun h => hlen h.2
    unfold AtoiBytes
    simp only
    rw [if_neg hslow]
    rcases ParseInt_not_numeral s hnum with ⟨h2, h1⟩ | ⟨h2, h1 | h1⟩
    · left
      rw [Prod.ext_iff]
      exact ⟨by simp only [h1]; exact toInt64_zero, h2⟩
    · right
      refine ⟨by omega, Or.inl ?_⟩
      rw [Prod.ext_iff]
      exact ⟨by simp only [h1]; unfold toInt64; omega, h2⟩
    · right
      refine ⟨by omega, Or.inr ?_⟩
      rw [Prod.ext_iff]
      exact ⟨by simp only [h1]; unfold toInt64; omega, h2⟩

theorem Atoi_not_numeral (s : String) (hnum : isNumeral (bytes s) = false) :
    Atoi s = (0, some .ErrSyntax) ∨
    (19 ≤ (bytes s).length ∧
      (Atoi s = (2 ^ 63 - 1, some .ErrRange) ∨ Atoi s = (-2 ^ 63, some .ErrRange))) :=
  AtoiBytes_not_numeral _ (bytes_lt s) hnum

/-- On a longer string the digit loop of `ParseUint` stops at the first
overflow: twenty nines followed by a letter give a range error with the
largest `int`, the letter is never read. -/
theorem Atoi_overflow_before_letter :
    Atoi "99999999999999999999x" = (9223372036854775807, some .ErrRange) := by
  decide

end strconv

namespace golang

/-- The conversion `uint(n)` keeps the value of a non-negative `int`. -/
theorem uint_of_nonneg (n : Int) (h0 : 0 ≤ n) (h1 : n < 2 ^ 63) :
    ((uint n : Nat) : Int) = n := by
  unfold uint intSize
  omega

/-- The conversion `uint(n)` of a negative `int` is `2^64 + n`. -/
theorem uint_of_neg (n : Int) (h0 : n < 0) (h1 : -2 ^ 63 ≤ n) :
    ((uint n : Nat) : Int) = 2 ^ 64 + n := by
  unfold uint intSize
  omega

theorem uint_zero : uint 0 = 0 := by
  unfold uint
  simp

end golang

/-! ## The handlers -/

namespace controllers

open golang strconv

variable {T : Types}

/-- C1: in GetUserById, SuspendUserById, DeactivateUserById, ActivateUserById
and UpdatePassword, when `strconv.Atoi` fails on the `id` path parameter or
gives a value below 1, the run is the single call of RespondWithError with
status 400 and the message "Invalid user id parameter": no service invocation
takes place, whatever the request body. -/
theorem invalid_id_rejected (env : Env T) (c : Context)
    (h : (Atoi (c.Param "id")).2 ≠ none ∨ (Atoi (c.Param "id")).1 < 1) :
    GetUserById env c = [.RespondWithError 400 "Invalid user id parameter"] ∧
    SuspendUserById env c = [.RespondWithError 400 "Invalid user id parameter"] ∧
    DeactivateUserById env c = [.RespondWithError 400 "Invalid user id parameter"] ∧
    ActivateUserById env c = [.RespondWithError 400 "Invalid user id parameter"] ∧
    UpdatePassword env c = [.RespondWithError 400 "Invalid user id parameter"] := by
  refine ⟨?_, ?_, ?_, ?_, ?_⟩
  · unfold GetUserById
    simp only
    rw [if_pos h]
    rfl
  · unfold SuspendUserById
    simp only
    rw [if_pos h]
    rfl
  · unfold DeactivateUserById
    simp only
    rw [if_pos h]
    rfl
  · unfold ActivateUserById
    simp only
    rw [if_pos h]
    rfl
  · unfold UpdatePassword
    simp only
    rw [if_pos h]
    rfl

/-- Witness of C1 at the identifier `0` (parses, below 1), with a body that
would bind and validate. -/
theorem invalid_id_rejected_witness :
    ((Atoi ((reqId "0" "x").Param "id")).2 ≠ none ∨
      (Atoi ((reqId "0" "x").Param "id")).1 < 1) ∧
    UpdatePassword env0 (reqId "0" "x") =
      [.RespondWithError 400 "Invalid user id parameter"] :=
  ⟨by decide, (invalid_id_rejected env0 (reqId "0" "x") (by decide)).2.2.2.2⟩

/-- C2 (the code at the failing input): UpdateUser on the identifier `abc`,
on which `Atoi` fails, with a body that binds and validates, invokes the
service with id 0 and answers 200. -/
theorem UpdateUser_unparsable_id_reaches_service :
    (Atoi ((reqId "abc" "x").Param "id")).2 = some .ErrSyntax ∧
    UpdateUser env0 (reqId "abc" "x") =
      [.service (.UpdateUser 0 "x"),
       .JSON 200 (.H [("message",
         .str "User with ID: 0 successfully updated with the given data")])] :=
  ⟨by decide, by rfl⟩

/-! ### The form of every run -/

theorem GetUserList_shape (env : Env T) (c : Context) :
    Shape env (GetUserList env c) := by
  unfold GetUserList
  simp only
  generalize (if c.Query "limit" ≠ "" then _ else _ : UserListDto) = d
  generalize hr : env.userService.GetUserList d.Page d.Limit = r
  obtain ⟨us, tot, e⟩ := r
  cases e with
  | some e =>
    right; right; left
    exact ⟨.GetUserList d.Page d.Limit, e, by simp [Env.errOf, hr], rfl⟩
  | none =>
    right; right; right
    exact ⟨.GetUserList d.Page d.Limit, _, by simp [Env.errOf, hr], rfl⟩

theorem GetUserById_shape (env : Env T) (c : Context) :
    Shape env (GetUserById env c) := by
  unfold GetUserById
  simp only
  split_ifs with hg
  · left
    exact ⟨_, rfl⟩
  · generalize hr : env.userService.GetUserById (uint (Atoi (c.Param "id")).1) = r
    obtain ⟨u, e⟩ := r
    cases e with
    | some e =>
      right; right; left
      exact ⟨.GetUserById _, e, by simp [Env.errOf, hr], rfl⟩
    | none =>
      right; right; right
      exact ⟨.GetUserById _, _, by simp [Env.errOf, hr], rfl⟩

theorem CreateUser_shape (env : Env T) (c : Context) :
    Shape env (CreateUser env c) := by
  unfold CreateUser
  cases env.ShouldBindJSONUserDto c.Body with
  | none =>
    left
    exact ⟨_, rfl⟩
  | some dto =>
    simp only
    cases env.validateStruct dto with
    | some ve =>
      right; left
      exact ⟨_, rfl⟩
    | none =>
      simp only
      generalize hr : env.userService.CreateUser dto = r
      obtain ⟨u, pw, e⟩ := r
      cases e with
      | some e =>
        right; right; left
        exact ⟨.CreateUser dto, e, by simp [Env.errOf, hr], rfl⟩
      | none =>
        right; right; right
        exact ⟨.CreateUser dto, _, by simp [Env.errOf, hr], rfl⟩

theorem SuspendUserById_shape (env : Env T) (c : Context) :
    Shape env (SuspendUserById env c) := by
  unfold SuspendUserById
  simp only
  split_ifs with hg
  · left
    exact ⟨_, rfl⟩
  · cases hr : env.userService.SuspendUserById (uint (Atoi (c.Param "id")).1) with
    | some e =>
      right; right; left
      exact ⟨.SuspendUserById _, e, by simp [Env.errOf, hr], rfl⟩
    | none =>
      right; right; right
      exact ⟨.SuspendUserById _, _, by simp [Env.errOf, hr], rfl⟩

theorem DeactivateUserById_shape (env : Env T) (c : Context) :
    Shape env (DeactivateUserById env c) := by
  unfold DeactivateUserById
  simp only
  split_ifs with hg
  · left
    exact ⟨_, rfl⟩
  · cases hr : env.userService.DeactivateUserById (uint (Atoi (c.Param "id")).1) with
    | some e =>
      right; right; left
      exact ⟨.DeactivateUserById _, e, by simp [Env.errOf, hr], rfl⟩
    | none =>
      right; right; right
      exact ⟨.DeactivateUserById _, _, by simp [Env.errOf, hr], rfl⟩

theorem ActivateUserById_shape (env : Env T) (c : Context) :
    Shape env (ActivateUserById env c) := by
  unfold ActivateUserById
  simp only
  split_ifs with hg
  · left
    exact ⟨_, rfl⟩
  · cases hr : env.userService.ActivateUserById (uint (Atoi (c.Param "id")).1) with
    | some e =>
      right; right; left
      exact ⟨.ActivateUserById _, e, by simp [Env.errOf, hr], rfl⟩
    | none =>
      right; right; right
      exact ⟨.ActivateUserById _, _, by simp [Env.errOf, hr], rfl⟩

theorem UpdateUser_shape (env : Env T) (c : Context) :
    Shape env (UpdateUser env c) := by
  unfold UpdateUser
  simp only
  cases env.ShouldBindJSONUserDto c.Body with
  | none =>
    left
    exact ⟨_, rfl⟩
  | some dto =>
    simp only
    cases env.validateStruct dto with
    | some ve =>
      left
      exact ⟨_, rfl⟩
    | none =>
      simp only
      cases hr : env.userService.UpdateUser (uint (Atoi (c.Param "id")).1) dto with
      | some e =>
        right; right; left
        exact ⟨.UpdateUser _ dto, e, by simp [Env.errOf, hr], rfl⟩
      | none =>
        right; right; right
        exact ⟨.UpdateUser _ dto, _, by simp [Env.errOf, hr], rfl⟩

theorem UpdatePassword_shape (env : Env T) (c : Context) :
    Shape env (UpdatePassword env c) := by
  unfold UpdatePassword
  simp only
  split_ifs with hg
  · left
    exact ⟨_, rfl⟩
  · cases env.ShouldBindJSONPasswordUpdateDto c.Body with
    | none =>
      left
      exact ⟨_, rfl⟩
    | some dto =>
      simp only
      cases env.customValidateStruct dto with
      | some ve =>
        right; left
        exact ⟨_, rfl⟩
      | none =>
        simp only
        cases hr : env.userService.UpdatePassword (uint (Atoi (c.Param "id")).1) dto with
        | some e =>
          right; right; left
          exact ⟨.UpdatePassword _ dto, e, by simp [Env.errOf, hr], rfl⟩
        | none =>
          right; right; right
          exact ⟨.UpdatePassword _ dto, _, by simp [Env.errOf, hr], rfl⟩

/-- Every run of every handler has one of the four forms. -/
theorem run_shape (h : Handler) (env : Env T) (c : Context) :
    Shape env (h.run env c) := by
  cases h
  · exact GetUserList_shape env c
  · exact GetUserById_shape env c
  · exact CreateUser_shape env c
  · exact SuspendUserById_shape env c
  · exact DeactivateUserById_shape env c
  · exact ActivateUserById_shape env c
  · exact UpdateUser_shape env c
  · exact UpdatePassword_shape env c

/-- C3: for each of the eight handlers and each request whose run reaches a
service invocation: when the service returns a non-nil error the only
response written is RespondWithError with status 500 and the message of that
error, and no success body; when it returns no error the only response
written is a JSON response with status 200. -/
theorem service_result_decides_status (h : Handler) (env : Env T) (c : Context)
    (call : Call T) (hcall : Event.service call ∈ h.run env c) :
    (∀ e, env.errOf call = some e →
      responses (h.run env c) = [.RespondWithError 500 (env.ErrorString e)]) ∧
    (env.errOf call = none → ∃ obj, responses (h.run env c) = [.JSON 200 obj]) := by
  rcases run_shape h env c with ⟨msg, hr⟩ | ⟨obj, hr⟩ | ⟨call1, e1, he, hr⟩ |
    ⟨call1, obj, he, hr⟩
  · rw [hr] at hcall
    simp at hcall
  · rw [hr] at hcall
    simp at hcall
  · rw [hr] at hcall ⊢
    simp only [List.mem_cons, Event.service.injEq, List.mem_singleton, reduceCtorEq,
      or_false, List.not_mem_nil] at hcall
    subst hcall
    constructor
    · intro e h1
      rw [he] at h1
      cases h1
      rfl
    · intro h1
      rw [he] at h1
      cases h1
  · rw [hr] at hcall ⊢
    simp only [List.mem_cons, Event.service.injEq, List.mem_singleton, reduceCtorEq,
      or_false, List.not_mem_nil] at hcall
    subst hcall
    constructor
    · intro e h1
      rw [he] at h1
      cases h1
    · intro _
      exact ⟨obj, rfl⟩

/-- Witness of C3: SuspendUserById on identifier 13, for which the concrete
service returns an error. -/
theorem service_result_decides_status_witness :
    (∀ e, env0.errOf (.SuspendUserById 13) = some e →
      responses (Handler.run .SuspendUserById env0 (reqId "13" "")) =
        [.RespondWithError 500 (env0.ErrorString e)]) ∧
    (env0.errOf (.SuspendUserById 13) = none →
      ∃ obj, responses (Handler.run .SuspendUserById env0 (reqId "13" "")) =
        [.JSON 200 obj]) :=
  service_result_decides_status .SuspendUserById env0 (reqId "13" "")
    (.SuspendUserById 13) (by
      have h : Handler.run .SuspendUserById env0 (reqId "13" "") =
          [.service (.SuspendUserById 13),
           .RespondWithError 500 "record not found"] := by rfl
      rw [h]
      exact List.mem_cons_self _ _)

/-- C10: every handler, on every request and for every outcome of binding,
validation and the service call, writes exactly one response, with status
200, 400 or 500, and invokes the service at most once; a 400 comes with no
service invocation, a 500 with one invocation that returned an error. -/
theorem one_response_per_run (h : Handler) (env : Env T) (c : Context) :
    ∃ r, responses (h.run env c) = [r] ∧
      (r.status = some 200 ∨ r.status = some 400 ∨ r.status = some 500) ∧
      (calls (h.run env c)).length ≤ 1 ∧
      (r.status = some 400 → calls (h.run env c) = []) ∧
      (r.status = some 500 →
        ∃ call e, calls (h.run env c) = [call] ∧ env.errOf call = some e) := by
  rcases run_shape h env c with ⟨msg, hr⟩ | ⟨obj, hr⟩ | ⟨call1, e1, he, hr⟩ |
    ⟨call1, obj, he, hr⟩
  · refine ⟨_, by rw [hr]; rfl, ?_, ?_, ?_, ?_⟩
    · right; left; rfl
    · rw [hr]; simp [calls]
    · intro _; rw [hr]; rfl
    · intro h5; simp [Event.status] at h5
  · refine ⟨_, by rw [hr]; rfl, ?_, ?_, ?_, ?_⟩
    · right; left; rfl
    · rw [hr]; simp [calls]
    · intro _; rw [hr]; rfl
    · intro h5; simp [Event.status] at h5
  · refine ⟨_, by rw [hr]; rfl, ?_, ?_, ?_, ?_⟩
    · right; right; rfl
    · rw [hr]; simp [calls]
    · intro h4; simp [Event.status] at h4
    · intro _
      exact ⟨call1, e1, by rw [hr]; rfl, he⟩
  · refine ⟨_, by rw [hr]; rfl, ?_, ?_, ?_, ?_⟩
    · left; rfl
    · rw [hr]; simp [calls]
    · intro h4; simp [Event.status] at h4
    · intro h5; simp [Event.status] at h5

/-- C4: in CreateUser, UpdateUser and UpdatePassword (the latter with an
identifier that parses to a value of at least 1): when JSON binding fails the
run is the single RespondWithError 400 "Invalid request payload"; when
binding succeeds and struct validation fails the run is a single 400 response
carrying the validation errors; a service invocation occurs in a run only
when binding and validation both succeeded. -/
theorem payload_checked_before_service (env : Env T) (c : Context) :
    (env.ShouldBindJSONUserDto c.Body = none →
      CreateUser env c = [.RespondWithError 400 "Invalid request payload"] ∧
      UpdateUser env c = [.RespondWithError 400 "Invalid request payload"]) ∧
    (∀ dto ve, env.ShouldBindJSONUserDto c.Body = some dto →
      env.validateStruct dto = some ve →
      CreateUser env c = [.JSON 400 (.H [("error", .translate .nil ve)])] ∧
      UpdateUser env c = [.RespondWithError 400 (env.ValidationErrorsError ve)]) ∧
    (∀ call, (Event.service call ∈ CreateUser env c ∨
        Event.service call ∈ UpdateUser env c) →
      ∃ dto, env.ShouldBindJSONUserDto c.Body = some dto ∧
        env.validateStruct dto = none) ∧
    ((Atoi (c.Param "id")).2 = none → 1 ≤ (Atoi (c.Param "id")).1 →
      (env.ShouldBindJSONPasswordUpdateDto c.Body = none →
        UpdatePassword env c = [.RespondWithError 400 "Invalid request payload"]) ∧
      (∀ dto ve, env.ShouldBindJSONPasswordUpdateDto c.Body = some dto →
        env.customValidateStruct dto = some ve →
        UpdatePassword env c =
          [.JSON 400 (.H [("errors", .translate .customValidateTranslator ve)])])) ∧
    (∀ call, Event.service call ∈ UpdatePassword env c →
      ∃ dto, env.ShouldBindJSONPasswordUpdateDto c.Body = some dto ∧
        env.customValidateStruct dto = none) := by
  refine ⟨?_, ?_, ?_, ?_, ?_⟩
  · intro hb
    constructor
    · unfold CreateUser
      rw [hb]
      rfl
    · unfold UpdateUser
      simp only
      rw [hb]
      rfl
  · intro dto ve hb hv
    constructor
    · unfold CreateUser
      rw [hb]
      simp only
      rw [hv]
      rfl
    · unfold UpdateUser
      simp only
      rw [hb]
      simp only
      rw [hv]
      rfl
  · intro call hmem
    cases hb : env.ShouldBindJSONUserDto c.Body with
    | none =>
      exfalso
      rcases hmem with hmem | hmem
      · unfold CreateUser at hmem
        rw [hb] at hmem
        simp at hmem
      · unfold UpdateUser at hmem
        simp only at hmem
        rw [hb] at hmem
        simp at hmem
    | some dto =>
      refine ⟨dto, rfl, ?_⟩
      cases hv : env.validateStruct dto with
      | none => rfl
      | some ve =>
        exfalso
        rcases hmem with hmem | hmem
        · unfold CreateUser at hmem
          rw [hb] at hmem
          simp only at hmem
          rw [hv] at hmem
          simp at hmem
        · unfold UpdateUser at hmem
          simp only at hmem
          rw [hb] at hmem
          simp only at hmem
          rw [hv] at hmem
          simp at hmem
  · intro herr hid
    have hg : ¬ ((Atoi (c.Param "id")).2 ≠ none ∨ (Atoi (c.Param "id")).1 < 1) := by
      rintro (h | h)
      · exact h herr
      · omega
    constructor
    · intro hb
      unfold UpdatePassword
      simp only
      rw [if_neg hg, hb]
      rfl
    · intro dto ve hb hv
      unfold UpdatePassword
      simp only
      rw [if_neg hg, hb]
      simp only
      rw [hv]
      rfl
  · intro call hmem
    unfold UpdatePassword at hmem
    simp only at hmem
    split_ifs at hmem with hg
    · simp at hmem
    · cases hb : env.ShouldBindJSONPasswordUpdateDto c.Body with
      | none =>
        rw [hb] at hmem
        simp at hmem
      | some dto =>
        refine ⟨dto, rfl, ?_⟩
        cases hv : env.customValidateStruct dto with
        | none => rfl
        | some ve =>
          rw [hb] at hmem
          simp only at hmem
          rw [hv] at hmem
          simp at hmem

/-- Witness of C4: the concrete environment rejects the empty body at binding
and the payload `bad` at validation. -/
theorem payload_checked_before_service_witness :
    CreateUser env0 (reqId "5" "") =
      [.RespondWithError 400 "Invalid request payload"] ∧
    UpdateUser env0 (reqId "5" "bad") =
      [.RespondWithError 400 "Email is required"] ∧
    UpdatePassword env0 (reqId "5" "bad") =
      [.JSON 400 (.H [("errors", .translate .customValidateTranslator "too short")])] :=
  ⟨((payload_checked_before_service env0 (reqId "5" "")).1 (by rfl)).1,
   ((payload_checked_before_service env0 (reqId "5" "bad")).2.1 "bad"
      "Email is required" (by rfl) (by rfl)).2,
   ((payload_checked_before_service env0 (reqId "5" "bad")).2.2.2.1 (by decide)
      (by decide)).2 "bad" "too short" (by rfl) (by rfl)⟩

/-- C6: a CreateUser request whose body binds and validates, and for which
the service returns `(createdUser, generatedPassword, nil)`, gets the single
response 200 with the JSON object of exactly the two keys `id` and
`password`: the ID of the created user and the generated password as the
service returned it. -/
theorem CreateUser_success_body (env : Env T) (c : Context) (dto : T.UserDto)
    (createdUser : T.User) (generatedPassword : String)
    (hb : env.ShouldBindJSONUserDto c.Body = some dto)
    (hv : env.validateStruct dto = none)
    (hs : env.userService.CreateUser dto = (createdUser, generatedPassword, none)) :
    CreateUser env c =
      [.service (.CreateUser dto),
       .JSON 200 (.H [("id", .id (env.UserID createdUser)),
                      ("password", .str generatedPassword)])] := by
  unfold CreateUser
  rw [hb]
  simp only
  rw [hv]
  simp only
  rw [hs]
  rfl

/-- Witness of C6 on the concrete service, which creates user 7 with the
password `s3cret`. -/
theorem CreateUser_success_body_witness :
    CreateUser env0 (reqId "" "new") =
      [.service (.CreateUser "new"),
       .JSON 200 (.H [("id", .id 7), ("password", .str "s3cret")])] :=
  CreateUser_success_body env0 (reqId "" "new") "new" 7 "s3cret" (by rfl) (by rfl)
    (by rfl)

/-- The guard on the identifier does not fire on a parsed value of at
least 1. -/
theorem guard_false (n : Int) (hn : 1 ≤ n) :
    ¬ ((none : Option NumError) ≠ none ∨ n < 1) := by
  rintro (h | h)
  · exact h rfl
  · omega

/-- C5: in GetUserById, SuspendUserById, DeactivateUserById, ActivateUserById
and UpdatePassword, when the `id` path parameter parses to an integer `n` of
at least 1 (and, for UpdatePassword, the body binds and validates), the
service operation is invoked exactly once, with the id `uint(n)`, which has
the value `n`; when the service succeeds, the single response is a 200 that
carries the user the service returned for that id, or the success message
with `n` printed in it. -/
theorem valid_id_reaches_service (env : Env T) (c : Context) (n : Int)
    (hparse : Atoi (c.Param "id") = (n, none)) (hn : 1 ≤ n) :
    ((uint n : Nat) : Int) = n ∧
    (calls (GetUserById env c) = [.GetUserById (uint n)] ∧
      ((env.userService.GetUserById (uint n)).2 = none →
        responses (GetUserById env c) =
          [.JSON 200 (.user (env.userService.GetUserById (uint n)).1)])) ∧
    (calls (SuspendUserById env c) = [.SuspendUserById (uint n)] ∧
      (env.userService.SuspendUserById (uint n) = none →
        responses (SuspendUserById env c) =
          [.JSON 200 (.H [("message",
            .str ("User with ID: " ++ fmtD n ++ " successfully suspended"))])])) ∧
    (calls (DeactivateUserById env c) = [.DeactivateUserById (uint n)] ∧
      (env.userService.DeactivateUserById (uint n) = none →
        responses (DeactivateUserById env c) =
          [.JSON 200 (.H [("message",
            .str ("User with ID: " ++ fmtD n ++ " successfully deactivated"))])])) ∧
    (calls (ActivateUserById env c) = [.ActivateUserById (uint n)] ∧
      (env.userService.ActivateUserById (uint n) = none →
        responses (ActivateUserById env c) =
          [.JSON 200 (.H [("message",
            .str ("User with ID: " ++ fmtD n ++ " successfully reactivated"))])])) ∧
    (∀ dto, env.ShouldBindJSONPasswordUpdateDto c.Body = some dto →
      env.customValidateStruct dto = none →
      calls (UpdatePassword env c) = [.UpdatePassword (uint n) dto] ∧
      (env.userService.UpdatePassword (uint n) dto = none →
        responses (UpdatePassword env c) =
          [.JSON 200 (.H [("message",
            .str ("Password of user with Id : " ++ fmtD n ++
              " successfully updated "))])])) := by
  have hg := guard_false n hn
  have hrange := Atoi_range (c.Param "id")
  rw [hparse] at hrange
  refine ⟨uint_of_nonneg n (by omega) hrange.2, ?_, ?_, ?_, ?_, ?_⟩
  · unfold GetUserById
    simp only
    rw [hparse]
    simp only
    rw [if_neg hg]
    generalize env.userService.GetUserById (uint n) = r
    obtain ⟨u, e⟩ := r
    cases e with
    | some e => exact ⟨rfl, fun h => by cases h⟩
    | none => exact ⟨rfl, fun _ => rfl⟩
  · unfold SuspendUserById
    simp only
    rw [hparse]
    simp only
    rw [if_neg hg]
    cases env.userService.SuspendUserById (uint n) with
    | some e => exact ⟨rfl, fun h => by cases h⟩
    | none => exact ⟨rfl, fun _ => rfl⟩
  · unfold DeactivateUserById
    simp only
    rw [hparse]
    simp only
    rw [if_neg hg]
    cases env.userService.DeactivateUserById (uint n) with
    | some e => exact ⟨rfl, fun h => by cases h⟩
    | none => exact ⟨rfl, fun _ => rfl⟩
  · unfold ActivateUserById
    simp only
    rw [hparse]
    simp only
    rw [if_neg hg]
    cases env.userService.ActivateUserById (uint n) with
    | some e => exact ⟨rfl, fun h => by cases h⟩
    | none => exact ⟨rfl, fun _ => rfl⟩
  · intro dto hb hv
    unfold UpdatePassword
    simp only
    rw [hparse]
    simp only
    rw [if_neg hg, hb]
    simp only
    rw [hv]
    simp only
    cases env.userService.UpdatePassword (uint n) dto with
    | some e => exact ⟨rfl, fun h => by cases h⟩
    | none => exact ⟨rfl, fun _ => rfl⟩

/-- Witness of C5 at the identifier `42`. -/
theorem valid_id_reaches_service_witness :
    Atoi ((reqId "42" "x").Param "id") = (42, none) ∧
    calls (SuspendUserById env0 (reqId "42" "x")) = [.SuspendUserById (uint 42)] ∧
    (env0.userService.SuspendUserById (uint 42) = none →
      responses (SuspendUserById env0 (reqId "42" "x")) =
        [.JSON 200 (.H [("message",
          .str ("User with ID: " ++ fmtD 42 ++ " successfully suspended"))])]) :=
  ⟨by decide,
   (valid_id_reaches_service env0 (reqId "42" "x") 42 (by decide) (by decide)).2.2.1⟩

/-- C8: GetUserList invokes the service once, with a page and a limit chosen
independently of each other: the integer value of the query parameter when
that parameter is non-empty and parses (zero and negative values included,
unchanged), the default of `NewUserListDto` otherwise. No run writes a 400,
and when the service returns no error the response is a 200, whatever the
two query parameters are. -/
theorem GetUserList_paging (env : Env T) (c : Context) :
    calls (GetUserList env c) =
      [.GetUserList (pageOrDefault (c.Query "page") env.NewUserListDto.Page)
        (pageOrDefault (c.Query "limit") env.NewUserListDto.Limit)] ∧
    (∀ e ∈ GetUserList env c, e.status ≠ some 400) ∧
    ((env.userService.GetUserList
        (pageOrDefault (c.Query "page") env.NewUserListDto.Page)
        (pageOrDefault (c.Query "limit") env.NewUserListDto.Limit)).2.2 = none →
      ∃ obj, responses (GetUserList env c) = [.JSON 200 obj]) := by
  have hp : (if c.Query "limit" ≠ "" then
        if (Atoi (c.Query "limit")).2 = none then
          ({ (if c.Query "page" ≠ "" then
                if (Atoi (c.Query "page")).2 = none then
                  ({ env.NewUserListDto with Page := (Atoi (c.Query "page")).1 } :
                    UserListDto)
                else env.NewUserListDto
              else env.NewUserListDto) with
            Limit := (Atoi (c.Query "limit")).1 } : UserListDto)
        else (if c.Query "page" ≠ "" then
                if (Atoi (c.Query "page")).2 = none then
                  ({ env.NewUserListDto with Page := (Atoi (c.Query "page")).1 } :
                    UserListDto)
                else env.NewUserListDto
              else env.NewUserListDto)
      else (if c.Query "page" ≠ "" then
                if (Atoi (c.Query "page")).2 = none then
                  ({ env.NewUserListDto with Page := (Atoi (c.Query "page")).1 } :
                    UserListDto)
                else env.NewUserListDto
              else env.NewUserListDto)) =
      ({ Page := pageOrDefault (c.Query "page") env.NewUserListDto.Page,
         Limit := pageOrDefault (c.Query "limit") env.NewUserListDto.Limit } :
        UserListDto) := by
    unfold pageOrDefault
    split_ifs <;> simp_all
  unfold GetUserList
  simp only
  rw [hp]
  simp only
  generalize env.userService.GetUserList
    (pageOrDefault (c.Query "page") env.NewUserListDto.Page)
    (pageOrDefault (c.Query "limit") env.NewUserListDto.Limit) = r
  obtain ⟨us, tot, e⟩ := r
  cases e with
  | some e =>
    refine ⟨rfl, ?_, fun h => by cases h⟩
    intro ev hev
    simp only [List.mem_cons, List.mem_singleton, List.not_mem_nil, or_false] at hev
    rcases hev with rfl | rfl <;> simp [Event.status, StatusInternalServerError]
  | none =>
    refine ⟨rfl, ?_, fun _ => ⟨_, rfl⟩⟩
    intro ev hev
    simp only [List.mem_cons, List.mem_singleton, List.not_mem_nil, or_false] at hev
    rcases hev with rfl | rfl <;> simp [Event.status, StatusOK]

/-- With a body that binds and validates, UpdateUser invokes the service
once, with the conversion `uint` of whatever value `Atoi` returned. -/
theorem UpdateUser_calls (env : Env T) (c : Context) (dto : T.UserDto)
    (hb : env.ShouldBindJSONUserDto c.Body = some dto)
    (hv : env.validateStruct dto = none) :
    calls (UpdateUser env c) = [.UpdateUser (uint (Atoi (c.Param "id")).1) dto] := by
  unfold UpdateUser
  simp only
  rw [hb]
  simp only
  rw [hv]
  simp only
  cases env.userService.UpdateUser (uint (Atoi (c.Param "id")).1) dto with
  | some e => rfl
  | none => rfl

/-- C9 as worded fails: the parameter of twenty nines followed by a letter is
not syntactically a number, the body binds and validates, and UpdateUser
invokes the service with id 9223372036854775807, not with id 0. -/
theorem UpdateUser_not_numeral_counterexample :
    ¬ (∀ (c : Context) (dto : T0.UserDto),
        env0.ShouldBindJSONUserDto c.Body = some dto →
        env0.validateStruct dto = none →
        isNumeral (bytes (c.Param "id")) = false →
        calls (UpdateUser env0 c) = [.UpdateUser 0 dto]) := by
  intro h
  have h1 := h (reqId "99999999999999999999x" "x") "x" (by rfl) (by rfl) (by decide)
  have h2 : calls (UpdateUser env0 (reqId "99999999999999999999x" "x")) =
      [.UpdateUser 9223372036854775807 "x"] := by rfl
  rw [h2] at h1
  simp at h1

/-- C9, amended: in UpdateUser, for a request whose body binds and validates:
when the `id` path parameter parses to a negative integer `n`, the service is
invoked once with the wrapped unsigned id `uint(n) = 2^64 + n`, and on success
the message reports the signed `n`; when the parameter is not syntactically a
number, the service is invoked once with id 0, except when the parameter has
19 bytes or more and `Atoi` reports a range error on it (its digits overflow
before the first other byte is read): the service is then invoked once with
the clamped id `2^63 - 1`, or `2^63` after a minus sign. `Atoi` reports a
syntax error on every parameter of fewer than 19 bytes that is not
syntactically a number, and a syntax error always gives id 0. -/
theorem UpdateUser_id_conversion (env : Env T) (c : Context) (dto : T.UserDto)
    (hb : env.ShouldBindJSONUserDto c.Body = some dto)
    (hv : env.validateStruct dto = none) :
    (∀ n, Atoi (c.Param "id") = (n, none) → n < 0 →
      ((uint n : Nat) : Int) = 2 ^ 64 + n ∧
      calls (UpdateUser env c) = [.UpdateUser (uint n) dto] ∧
      (env.userService.UpdateUser (uint n) dto = none →
        responses (UpdateUser env c) =
          [.JSON 200 (.H [("message",
            .str ("User with ID: " ++ fmtD n ++
              " successfully updated with the given data"))])])) ∧
    ((Atoi (c.Param "id")).2 = some .ErrSyntax →
      calls (UpdateUser env c) = [.UpdateUser 0 dto]) ∧
    ((bytes (c.Param "id")).length < 19 → isNumeral (bytes (c.Param "id")) = false →
      (Atoi (c.Param "id")).2 = some .ErrSyntax ∧
      calls (UpdateUser env c) = [.UpdateUser 0 dto]) ∧
    (isNumeral (bytes (c.Param "id")) = false →
      calls (UpdateUser env c) = [.UpdateUser 0 dto] ∨
      (19 ≤ (bytes (c.Param "id")).length ∧
        (Atoi (c.Param "id")).2 = some .ErrRange ∧
        (calls (UpdateUser env c) = [.UpdateUser (2 ^ 63 - 1) dto] ∨
         calls (UpdateUser env c) = [.UpdateUser (2 ^ 63) dto]))) := by
  have hcalls := UpdateUser_calls env c dto hb hv
  have hsyn : (Atoi (c.Param "id")).2 = some .ErrSyntax →
      calls (UpdateUser env c) = [.UpdateUser 0 dto] := by
    intro herr
    rw [hcalls, Atoi_ErrSyntax (c.Param "id") herr, uint_zero]
  refine ⟨?_, hsyn, ?_, ?_⟩
  · intro n hparse hneg
    have hrange := Atoi_range (c.Param "id")
    rw [hparse] at hrange
    refine ⟨uint_of_neg n hneg hrange.1, ?_⟩
    unfold UpdateUser
    simp only
    rw [hparse, hb]
    simp only
    rw [hv]
    simp only
    cases env.userService.UpdateUser (uint n) dto with
    | some e => exact ⟨rfl, fun h => by cases h⟩
    | none => exact ⟨rfl, fun _ => rfl⟩
  · intro hlen hnum
    have herr : (Atoi (c.Param "id")).2 = some .ErrSyntax := by
      rw [Atoi_short_not_numeral _ hlen hnum]
    exact ⟨herr, hsyn herr⟩
  · intro hnum
    rcases Atoi_not_numeral (c.Param "id") hnum with h0 | ⟨hlen, h1 | h1⟩
    · left
      rw [hcalls, h0, uint_zero]
    · right
      refine ⟨hlen, by rw [h1], Or.inl ?_⟩
      rw [hcalls, h1]
      rfl
    · right
      refine ⟨hlen, by rw [h1], Or.inr ?_⟩
      rw [hcalls, h1]
      rfl

/-- Witness of C9 at the identifier `-3`, and at twenty nines followed by a
letter, where the service gets the clamped id. -/
theorem UpdateUser_id_conversion_witness :
    (Atoi ((reqId "-3" "x").Param "id") = (-3, none) ∧
      ((uint (-3) : Nat) : Int) = 2 ^ 64 + (-3) ∧
      calls (UpdateUser env0 (reqId "-3" "x")) = [.UpdateUser (uint (-3)) "x"] ∧
      (env0.userService.UpdateUser (uint (-3)) "x" = none →
        responses (UpdateUser env0 (reqId "-3" "x")) =
          [.JSON 200 (.H [("message",
            .str ("User with ID: " ++ fmtD (-3) ++
              " successfully updated with the given data"))])])) ∧
    (calls (UpdateUser env0 (reqId "99999999999999999999x" "x")) =
        [.UpdateUser 0 "x"] ∨
      (19 ≤ (bytes ((reqId "99999999999999999999x" "x").Param "id")).length ∧
        (Atoi ((reqId "99999999999999999999x" "x").Param "id")).2 = some .ErrRange ∧
        (calls (UpdateUser env0 (reqId "99999999999999999999x" "x")) =
            [.UpdateUser (2 ^ 63 - 1) "x"] ∨
         calls (UpdateUser env0 (reqId "99999999999999999999x" "x")) =
            [.UpdateUser (2 ^ 63) "x"]))) :=
  ⟨⟨by decide,
    (UpdateUser_id_conversion env0 (reqId "-3" "x") "x" (by rfl) (by rfl)).1 (-3)
      (by decide) (by decide)⟩,
   (UpdateUser_id_conversion env0 (reqId "99999999999999999999x" "x") "x" (by rfl)
      (by rfl)).2.2.2 (by decide)⟩

/-- GetUserList on concrete query strings: a negative page and a zero limit
pass through unchanged; an absent page and an unparsable limit give the
defaults 1 and 10 of the concrete environment. -/
theorem GetUserList_paging_examples :
    calls (GetUserList env0 (reqList "-2" "0")) = [.GetUserList (-2) 0] ∧
    calls (GetUserList env0 (reqList "" "abc")) = [.GetUserList 1 10] ∧
    calls (GetUserList env0 (reqList "7" "")) = [.GetUserList 7 10] :=
  ⟨by rfl, by rfl, by rfl⟩

end controllers

/-! ## Email uniqueness at creation -/

namespace services

/-- One create-user request keeps the stored emails pairwise distinct. -/
theorem CreateUser_nodup (repo : UserRepository) (cred : Credentials)
    (s : repo.Store) (dto : UserDto)
    (h : ((repo.users s).map (fun u => u.Email)).Nodup) :
    ((repo.users (CreateUser repo cred s dto).1).map (fun u => u.Email)).Nodup := by
  unfold CreateUser
  cases hc : repo.CheckUserByEmail s dto.Email with
  | some u => exact h
  | none =>
    simp only
    cases hr : repo.CreateUser s
        { ID := 0, Email := dto.Email, Password := cred.derive (cred.generate dto),
          Status := .Active } with
    | none => exact h
    | some p =>
      obtain ⟨s1, u1⟩ := p
      obtain ⟨hu, he⟩ := repo.create_some _ _ _ _ hr
      simp only at he ⊢
      rw [hu, List.map_append, List.map_cons, List.map_nil, he]
      refine List.Nodup.append h (List.nodup_singleton _) ?_
      intro e he1 he2
      rw [List.mem_singleton] at he2
      subst he2
      obtain ⟨u, hu1, hu2⟩ := List.mem_map.mp he1
      exact repo.check_none s dto.Email hc u hu1 hu2

/-- C7: email uniqueness is enforced at creation. Starting from a storage
whose users have pairwise distinct emails (the empty storage included), every
storage reached by create-user requests has pairwise distinct emails; and a
create-user request whose email is held by a stored user, which
CheckUserByEmail then reports, fails and leaves the storage unchanged. -/
theorem email_unique_at_creation (repo : UserRepository) (cred : Credentials) :
    (∀ (dtos : List UserDto) (s : repo.Store),
      ((repo.users s).map (fun u => u.Email)).Nodup →
      ((repo.users (createAll repo cred s dtos)).map (fun u => u.Email)).Nodup) ∧
    (∀ (s : repo.Store) (dto : UserDto) (u : User),
      repo.CheckUserByEmail s dto.Email = some u →
      CreateUser repo cred s dto = (s, none)) ∧
    (∀ (s : repo.Store) (dto : UserDto) (u : User),
      u ∈ repo.users s → u.Email = dto.Email →
      CreateUser repo cred s dto = (s, none)) := by
  refine ⟨?_, ?_, ?_⟩
  · intro dtos
    induction dtos with
    | nil =>
      intro s h
      exact h
    | cons dto rest ih =>
      intro s h
      exact ih _ (CreateUser_nodup repo cred s dto h)
  · intro s dto u hc
    unfold CreateUser
    rw [hc]
  · intro s dto u hu he
    unfold CreateUser
    cases hc : repo.CheckUserByEmail s dto.Email with
    | some v => rfl
    | none => exact absurd he (repo.check_none s dto.Email hc u hu)

/-- Witness of C7 on the in-memory repository: three requests from the empty
storage, the third repeating the email of the first. -/
theorem email_unique_at_creation_witness :
    ((memRepo.users (createAll memRepo cred0 ([] : List User)
        [⟨"a@x"⟩, ⟨"b@x"⟩, ⟨"a@x"⟩])).map (fun u => u.Email)).Nodup ∧
    CreateUser memRepo cred0
        ([⟨1, "a@x", "#pw", .Active⟩] : List User) ⟨"a@x"⟩ =
      (([⟨1, "a@x", "#pw", .Active⟩] : List User), none) :=
  ⟨(email_unique_at_creation memRepo cred0).1 [⟨"a@x"⟩, ⟨"b@x"⟩, ⟨"a@x"⟩]
      ([] : List User) List.nodup_nil,
   (email_unique_at_creation memRepo cred0).2.1
      ([⟨1, "a@x", "#pw", .Active⟩] : List User) ⟨"a@x"⟩
      ⟨1, "a@x", "#pw", .Active⟩ (by decide)⟩

end services
